import Mathlib

/-!
Verification of the "Justify" government-policy explainer chatbot
(`rag_pipeline.py`, `app.py`).

Shallow embedding conventions:
* Python strings are modelled as `List Char` (Python indexes/slices strings
  by code point, so `s[:1500]` is `List.take 1500`, `s.strip()` strips
  whitespace from both ends, `s.split()` splits on whitespace runs).
* The LLM (`llm.invoke`), the random sampler (`random.sample`) and the spaCy
  pipeline (`nlp`) are external effects; they are passed in as explicit
  function parameters.  Theorems that need a property of `random.sample`
  (result length, membership) take it as a hypothesis, matching the library
  contract.
* `list(set(xs))` returns the distinct elements of `xs` in an unspecified
  order; it is modelled by `pyDedup`, which agrees with it on membership and
  on being duplicate-free, which is all the development relies on.
* Streamlit session state mutations are modelled by explicit state-passing
  over `ChatState` / `SessionState`.
-/

namespace Justify

/-- Shorthand: the character list underlying a string literal. -/
def S (s : String) : List Char := s.data

/-- Python's notion of whitespace for `str.strip()` / `str.split()` / `\s`. -/
def isWS (c : Char) : Bool := c.isWhitespace

/-- Strip characters satisfying `p` from both ends of a character list
(Python `str.strip(chars)` with the character class `p`). -/
def stripBoth (p : Char → Bool) (cs : List Char) : List Char :=
  ((cs.dropWhile p).reverse.dropWhile p).reverse

/-- Python `str.strip()` (no arguments): strip whitespace from both ends. -/
def pyStrip (cs : List Char) : List Char := stripBoth isWS cs

/-- Worker for `pyWords`: `cur` holds the reversed current word. -/
def pyWordsAux : List Char → List Char → List (List Char)
  | [], cur => if cur = [] then [] else [cur.reverse]
  | c :: cs, cur =>
    if isWS c then
      if cur = [] then pyWordsAux cs [] else cur.reverse :: pyWordsAux cs []
    else pyWordsAux cs (c :: cur)

/-- Python `str.split()` (no arguments): maximal non-whitespace runs. -/
def pyWords (cs : List Char) : List (List Char) := pyWordsAux cs []

/-- Python `q.endswith("?")`. -/
def endsQ (cs : List Char) : Bool := cs.getLast? == some '?'

/-- Split a character list into lines at `'\n'` (models both the
`re.MULTILINE` line structure and `str.splitlines()`; a trailing empty
piece is harmless because empty lines never yield candidates). -/
def splitLinesAux : List Char → List Char → List (List Char)
  | [], acc => [acc.reverse]
  | c :: cs, acc =>
    if c = '\n' then acc.reverse :: splitLinesAux cs [] else splitLinesAux cs (c :: acc)

def splitLines (cs : List Char) : List (List Char) := splitLinesAux cs []

/-- A document chunk as produced by `load_documents`: `page_content` plus the
`"source"` metadata entry (`none` models a metadata dict without the key). -/
structure Doc where
  page_content : List Char
  source : Option (List Char)
deriving DecidableEq

/-! ## Suggestion generator (`rag_pipeline.generate_suggestions`) -/

/-- `\s*\d+` has been consumed up to the digits; this is `\s*\d+` itself:
after optional whitespace there must be at least one digit. -/
def matchSpaceDigits : List Char → Bool
  | [] => false
  | c :: cs => if isWS c then matchSpaceDigits cs else c.isDigit

/-- One line-anchored match of `re.findall(r'^\s*\d+[\.\)]\s*(.+)', raw,
re.MULTILINE)`: optional whitespace, one or more digits, `.` or `)`,
then the capture `\s*(.+)` (greedy `\s*` backed off just enough to leave
`.+` one character — so an all-whitespace remainder captures its last
character). Returns the captured group. -/
def parseNumberedLine (line : List Char) : Option (List Char) :=
  let l1 := line.dropWhile isWS
  let ds := l1.takeWhile (fun c => c.isDigit)
  let r1 := l1.dropWhile (fun c => c.isDigit)
  if ds = [] then none
  else
    match r1 with
    | [] => none
    | c :: r2 =>
      if c = '.' ∨ c = ')' then
        if r2 = [] then none
        else
          match r2.dropWhile isWS with
          | [] =>
            match r2.getLast? with
            | some cl => some [cl]
            | none => none
          | r3 => some r3
      else none

/-- `re.findall(r'^\s*\d+[\.\)]\s*(.+)', raw_output, flags=re.MULTILINE)`. -/
def findNumbered (raw : List Char) : List (List Char) :=
  (splitLines raw).filterMap parseNumberedLine

/-- The character class of `line.strip("-•*1234567890. ")`. -/
def stripSet : List Char :=
  ['-', '•', '*', '1', '2', '3', '4', '5', '6', '7', '8', '9', '0', '.', ' ']

/-- Fallback parse: `[line.strip("-•*1234567890. ") for line in
raw_output.splitlines() if line.strip()]`. -/
def fallbackParse (raw : List Char) : List (List Char) :=
  (splitLines raw).filterMap fun line =>
    if pyStrip line = [] then none else some (stripBoth (fun c => stripSet.contains c) line)

/-- The prompt text before the interpolated `{context_text}` in
`generate_suggestions`. -/
def promptPrefix : List Char :=
  S "\n        You are given part of a legal/official/government document.\n\n        Task: Generate **exactly 5 unique FAQ-style questions** based only on this text.\n\n        Rules:\n        - Each question must be **under 12 words**.\n        - Cover purpose, scope, authority, penalties, rights, dates, definitions.\n        - Output format must be ONLY a numbered list (1-5). No extra text.\n\n        Text:\n        "

/-- The prompt text after the interpolated `{context_text}`. -/
def promptSuffix : List Char := S "\n\n        Questions:\n        "

def promptFor (context_text : List Char) : List Char :=
  promptPrefix ++ context_text ++ promptSuffix

/-- `[q.strip() for q in questions if len(q.split()) <= 12 and q.endswith("?")]`. -/
def filterGood (questions : List (List Char)) : List (List Char) :=
  (questions.filter fun q => decide ((pyWords q).length ≤ 12) && endsQ q).map pyStrip

/-- The per-document body of the loop in `generate_suggestions`: prompt the
LLM on the first 1500 characters, parse numbered lines (falling back to
bullet-stripped non-blank lines), filter, keep at most 5. -/
def processDoc (llm : List Char → List Char) (doc : Doc) : List (List Char) :=
  let context_text := doc.page_content.take 1500
  let raw_output := pyStrip (llm (promptFor context_text))
  let questions := findNumbered raw_output
  let questions := if questions = [] then fallbackParse raw_output else questions
  (filterGood questions).take 5

/-- `all_questions` after the loop in `generate_suggestions`. -/
def suggestionPool (llm : List Char → List Char) (docs : List Doc) : List (List Char) :=
  docs.foldl (fun acc doc => acc ++ processDoc llm doc) []

/-- The hard-coded fallback question list in `generate_suggestions`. -/
def fallbackQuestions : List (List Char) :=
  [S "What is the main purpose of this Act?",
   S "Who enforces this Act?",
   S "When was it enacted?",
   S "Who benefits from it?",
   S "What penalties are included?",
   S "What rights are guaranteed?",
   S "Which authority oversees compliance?",
   S "What is the scope of the law?",
   S "Are there any exceptions?",
   S "What is the definition of key terms?"]

/-- `generate_suggestions(docs, llm)`; `sample` stands for `random.sample`
(called only when the pool exceeds 10, with `k = 10`). -/
def generate_suggestions (llm : List Char → List Char)
    (sample : List (List Char) → Nat → List (List Char)) (docs : List Doc) :
    List (List Char) :=
  let all_questions := suggestionPool llm docs
  if 10 < all_questions.length then sample all_questions 10
  else if all_questions.length < 8 then
    all_questions ++ fallbackQuestions.take (8 - all_questions.length)
  else all_questions

/-! ## Glossary extractor (`rag_pipeline.extract_legal_glossary`) -/

/-- A spaCy entity, reduced to the three fields the code reads:
`ent.text`, `ent.label_`, `ent.root.pos_`. -/
structure Ent where
  text : List Char
  label : List Char
  rootPos : List Char

/-- The five-category glossary dict built per document. -/
structure Glossary where
  actsLaws : List (List Char)
  authorities : List (List Char)
  dates : List (List Char)
  sections : List (List Char)
  concepts : List (List Char)
deriving DecidableEq

def emptyGlossary : Glossary := ⟨[], [], [], [], []⟩

/-- `re.match(r'(Section|Sec\.?)\s*\d+', token_text, re.IGNORECASE)` as a
Boolean: case-insensitively, the text starts with `Section` or with `Sec`
plus an optional `.`, then optional whitespace, then at least one digit.
(When the text starts with `section`, backtracking into the `Sec`
alternative can never help: the remainder then starts with `tion…`.) -/
def sectionMatch (token_text : List Char) : Bool :=
  let cs := token_text.map Char.toLower
  if cs.take 7 = S "section" then matchSpaceDigits (cs.drop 7)
  else if cs.take 3 = S "sec" then
    match cs.drop 3 with
    | '.' :: rest => matchSpaceDigits rest
    | rest => matchSpaceDigits rest
  else false

inductive GCat
  | actsLaws | authorities | dates | sections | concepts
deriving DecidableEq

/-- The `if/elif` classification chain over one entity in
`extract_legal_glossary`, in source order: LAW, then ORG/GPE, then DATE,
then the Section pattern, then the Concepts condition; `none` means the
entity is dropped. -/
def classifyEnt (label token_text rootPos : List Char) : Option GCat :=
  if label = S "LAW" then some GCat.actsLaws
  else if label = S "ORG" ∨ label = S "GPE" then some GCat.authorities
  else if label = S "DATE" then some GCat.dates
  else if sectionMatch token_text then some GCat.sections
  else if (rootPos = S "PROPN" ∨ rootPos = S "NOUN") ∧ (pyWords token_text).length ≤ 4 then
    some GCat.concepts
  else none

def addTerm (g : Glossary) (c : GCat) (t : List Char) : Glossary :=
  match c with
  | GCat.actsLaws => { g with actsLaws := g.actsLaws ++ [t] }
  | GCat.authorities => { g with authorities := g.authorities ++ [t] }
  | GCat.dates => { g with dates := g.dates ++ [t] }
  | GCat.sections => { g with sections := g.sections ++ [t] }
  | GCat.concepts => { g with concepts := g.concepts ++ [t] }

/-- One iteration of the `for ent in spacy_doc.ents` loop:
`token_text = ent.text.strip()`, then the classification chain. -/
def processEnt (g : Glossary) (e : Ent) : Glossary :=
  let token_text := pyStrip e.text
  match classifyEnt e.label token_text e.rootPos with
  | some c => addTerm g c token_text
  | none => g

/-- `list(set(xs))`: the distinct elements of `xs`.  Python's `set` order is
unspecified; this keeps the last occurrence of each duplicate, and the
development only uses membership and duplicate-freeness. -/
def pyDedup : List (List Char) → List (List Char)
  | [] => []
  | x :: xs => if x ∈ xs then pyDedup xs else x :: pyDedup xs

/-- The `for k in glossary.keys(): glossary[k] = list(set(glossary[k]))`
pass. -/
def dedupGlossary (g : Glossary) : Glossary :=
  ⟨pyDedup g.actsLaws, pyDedup g.authorities, pyDedup g.dates,
   pyDedup g.sections, pyDedup g.concepts⟩

/-- `doc.metadata.get("source", "Unknown")`. -/
def sourceOf (doc : Doc) : List Char := doc.source.getD (S "Unknown")

/-- The glossary dict built for one document (entity loop plus dedup). -/
def glossaryFor (nlp : List Char → List Ent) (doc : Doc) : Glossary :=
  dedupGlossary ((nlp doc.page_content).foldl processEnt emptyGlossary)

/-- `extract_legal_glossary(documents)`: one `(source, glossary)` pair is
appended to `results` per input document, in input order.  `nlp` stands for
the spaCy model applied to `doc.page_content`, returning the entity list. -/
def extract_legal_glossary (nlp : List Char → List Ent) (documents : List Doc) :
    List (List Char × Glossary) :=
  documents.map fun doc => (sourceOf doc, glossaryFor nlp doc)

/-! ## Chat turn handling (`app.handle_user_input`) -/

/-- The pieces of `st.session_state` that `handle_user_input` touches:
`chat_history` is the rendered transcript of `(role, content)` messages,
`chat_memory` the ordered `(question, answer)` turns handed to the chain. -/
structure ChatState where
  chat_history : List (List Char × List Char)
  chat_memory : List (List Char × List Char)
deriving DecidableEq

/-- `handle_user_input(user_input)`: guard on truthiness of the input,
append the user message to `chat_history`, call the chain with
`{"question": user_input, "chat_history": st.session_state.chat_memory}`,
append the assistant message to `chat_history`, and finally append the new
`(question, answer)` turn to `chat_memory`.  `chain` stands for
`st.session_state.chat_chain`, a function of the question and the memory
(translation, read-aloud and source rendering are display-only). -/
def handle_user_input (chain : List Char → List (List Char × List Char) → List Char)
    (st : ChatState) (user_input : List Char) : ChatState :=
  if user_input = [] then st
  else
    let st1 : ChatState :=
      { st with chat_history := st.chat_history ++ [(S "user", user_input)] }
    let answer := chain user_input st1.chat_memory
    let st2 : ChatState :=
      { st1 with chat_history := st1.chat_history ++ [(S "assistant", answer)] }
    { st2 with chat_memory := st2.chat_memory ++ [(user_input, answer)] }

/-! ## Upload handling (the `if uploaded_files:` block of `app.py`) -/

/-- The derived session state written by the upload block.  The
chain/vector index is represented by the document list it was built from
(`create_temp_qa_chain(all_docs)` builds a fresh FAISS index over exactly
`all_docs`). -/
structure SessionState where
  chat_chain : Option (List Doc)
  suggestions : Option (List (List Char))
  glossary : Option (List (List Char × Glossary))
  uploaded_files_count : Option Nat
deriving DecidableEq

/-- One run of the upload block with `uploaded` the per-file chunk lists
produced by `load_documents` (so `all_docs` is their concatenation and
`len(uploaded_files)` is `uploaded.length`):
rebuild the chain, regenerate suggestions only when
`st.session_state.get("uploaded_files_count") == len(uploaded_files)` is
false, and rebuild the glossary. -/
def uploadEvent (llm : List Char → List Char)
    (sample : List (List Char) → Nat → List (List Char))
    (nlp : List Char → List Ent)
    (st : SessionState) (uploaded : List (List Doc)) : SessionState :=
  let all_docs := uploaded.flatten
  let st1 : SessionState := { st with chat_chain := some all_docs }
  let st2 : SessionState :=
    if st1.uploaded_files_count = some uploaded.length then st1
    else
      { st1 with
        suggestions := some (generate_suggestions llm sample all_docs),
        uploaded_files_count := some uploaded.length }
  { st2 with glossary := some (extract_legal_glossary nlp all_docs) }

/-! ## Chunker

The repository delegates splitting to
`CharacterTextSplitter(chunk_size=500, chunk_overlap=50)` from langchain,
whose code is not part of the repository; the Chunker below is modelled
from the spec instead (§4.1). -/

def CHUNK_SIZE : Nat := 500
def CHUNK_OVERLAP : Nat := 50

/-- Modelled from the spec: the sliding-window split underlying the absent
`CharacterTextSplitter` — fixed chunk size 500 and overlap 50, each chunk
starting 450 characters after the previous one, the final chunk possibly
shorter but never dropped. -/
def chunksFrom (cs : List Char) : List (List Char) :=
  if _h : cs.length ≤ CHUNK_SIZE then [cs]
  else cs.take CHUNK_SIZE :: chunksFrom (cs.drop (CHUNK_SIZE - CHUNK_OVERLAP))
termination_by cs.length
decreasing_by
  simp only [List.length_drop, CHUNK_SIZE, CHUNK_OVERLAP] at *
  omega

inductive DocError
  | InvalidDocumentError
deriving DecidableEq

/-- Modelled from the spec: `chunk(document)` fails with
`InvalidDocumentError` on empty text and otherwise returns the
sliding-window chunks. -/
def chunk_document (cs : List Char) : Except DocError (List (List Char)) :=
  if cs = [] then Except.error DocError.InvalidDocumentError
  else Except.ok (chunksFrom cs)

/-- Reassemble a chunk list by keeping the first chunk whole and removing
each later chunk's 50-character overlap with its predecessor; equality with
the original text states that no content (in particular no trailing
content) is dropped. -/
def reassemble (chunks : List (List Char)) : List Char :=
  match chunks with
  | [] => []
  | c :: rest => c ++ (rest.map (List.drop CHUNK_OVERLAP)).flatten

/-! ## Helper lemmas about the Python string operations -/

theorem getLast?_dropWhile_of_neg (p : Char → Bool) (a : Char) (hpa : p a = false) :
    ∀ l : List Char, l.getLast? = some a → (l.dropWhile p).getLast? = some a := by
  intro l
  induction l with
  | nil => intro h; simp at h
  | cons c t ih =>
    intro h
    by_cases hc : p c = true
    · rw [List.dropWhile_cons, if_pos hc]
      cases t with
      | nil =>
        rw [List.getLast?_singleton] at h
        injection h with h'
        rw [← h', hc] at hpa
        exact absurd hpa (by simp)
      | cons d t' =>
        rw [List.getLast?_cons_cons] at h
        exact ih h
    · rw [List.dropWhile_cons, if_neg hc]
      exact h

theorem endsQ_pyStrip {q : List Char} (h : endsQ q = true) : endsQ (pyStrip q) = true := by
  unfold endsQ at h ⊢
  rw [beq_iff_eq] at h ⊢
  unfold pyStrip stripBoth
  have h1 : (q.dropWhile isWS).getLast? = some '?' :=
    getLast?_dropWhile_of_neg isWS '?' rfl q h
  rw [List.getLast?_reverse]
  have h2 : (q.dropWhile isWS).reverse.head? = some '?' := by
    rw [List.head?_reverse]; exact h1
  cases hrev : (q.dropWhile isWS).reverse with
  | nil => rw [hrev] at h2; simp at h2
  | cons x t =>
    rw [hrev] at h2
    simp only [List.head?_cons] at h2
    injection h2 with hx
    subst hx
    rw [List.dropWhile_cons, if_neg (by decide : ¬ (isWS '?' = true))]
    rfl

theorem pyWordsAux_dropWhile (cs : List Char) :
    pyWordsAux (cs.dropWhile isWS) [] = pyWordsAux cs [] := by
  induction cs with
  | nil => rfl
  | cons c t ih =>
    by_cases hc : isWS c = true
    · rw [List.dropWhile_cons, if_pos hc, ih]
      simp [pyWordsAux, hc]
    · rw [List.dropWhile_cons, if_neg hc]

theorem pyWordsAux_all_ws :
    ∀ t : List Char, (∀ c ∈ t, isWS c = true) →
      ∀ cur : List Char, pyWordsAux t cur = if cur = [] then [] else [cur.reverse] := by
  intro t
  induction t with
  | nil => intro _ cur; rfl
  | cons c t' ih =>
    intro hws cur
    have hc : isWS c = true := hws c (List.mem_cons_self c t')
    have hws' : ∀ x ∈ t', isWS x = true := fun x hx => hws x (List.mem_cons_of_mem c hx)
    show (if isWS c = true then
      if cur = [] then pyWordsAux t' [] else cur.reverse :: pyWordsAux t' []
      else pyWordsAux t' (c :: cur)) = _
    rw [if_pos hc]
    by_cases hcur : cur = []
    · rw [if_pos hcur, if_pos hcur, ih hws' []]
      rfl
    · rw [if_neg hcur, if_neg hcur, ih hws' []]
      rfl

theorem pyWordsAux_append_ws :
    ∀ (cs t : List Char), (∀ c ∈ t, isWS c = true) →
      ∀ cur : List Char, pyWordsAux (cs ++ t) cur = pyWordsAux cs cur := by
  intro cs
  induction cs with
  | nil =>
    intro t hws cur
    rw [List.nil_append, pyWordsAux_all_ws t hws cur]
    rfl
  | cons c cs' ih =>
    intro t hws cur
    rw [List.cons_append]
    show (if isWS c = true then
      if cur = [] then pyWordsAux (cs' ++ t) [] else cur.reverse :: pyWordsAux (cs' ++ t) []
      else pyWordsAux (cs' ++ t) (c :: cur)) = _
    by_cases hc : isWS c = true
    · rw [if_pos hc]
      by_cases hcur : cur = []
      · rw [if_pos hcur, ih t hws []]
        show _ = (if isWS c = true then
          if cur = [] then pyWordsAux cs' [] else cur.reverse :: pyWordsAux cs' []
          else pyWordsAux cs' (c :: cur))
        rw [if_pos hc, if_pos hcur]
      · rw [if_neg hcur, ih t hws []]
        show _ = (if isWS c = true then
          if cur = [] then pyWordsAux cs' [] else cur.reverse :: pyWordsAux cs' []
          else pyWordsAux cs' (c :: cur))
        rw [if_pos hc, if_neg hcur]
    · rw [if_neg hc, ih t hws (c :: cur)]
      show _ = (if isWS c = true then
        if cur = [] then pyWordsAux cs' [] else cur.reverse :: pyWordsAux cs' []
        else pyWordsAux cs' (c :: cur))
      rw [if_neg hc]

theorem pyWords_pyStrip (q : List Char) : pyWords (pyStrip q) = pyWords q := by
  unfold pyWords pyStrip stripBoth
  have hdecomp :
      ((q.dropWhile isWS).reverse.dropWhile isWS).reverse ++
        ((q.dropWhile isWS).reverse.takeWhile isWS).reverse = q.dropWhile isWS := by
    rw [← List.reverse_append, List.takeWhile_append_dropWhile, List.reverse_reverse]
  have hws : ∀ c ∈ ((q.dropWhile isWS).reverse.takeWhile isWS).reverse, isWS c = true := by
    intro c hc
    rw [List.mem_reverse] at hc
    exact List.mem_takeWhile_imp hc
  calc pyWordsAux ((q.dropWhile isWS).reverse.dropWhile isWS).reverse []
      = pyWordsAux (((q.dropWhile isWS).reverse.dropWhile isWS).reverse ++
          ((q.dropWhile isWS).reverse.takeWhile isWS).reverse) [] :=
        (pyWordsAux_append_ws _ _ hws []).symm
    _ = pyWordsAux (q.dropWhile isWS) [] := by rw [hdecomp]
    _ = pyWordsAux q [] := pyWordsAux_dropWhile q

theorem processDoc_good (llm : List Char → List Char) (doc : Doc) :
    ∀ q ∈ processDoc llm doc, endsQ q = true ∧ (pyWords q).length ≤ 12 := by
  intro q hq
  simp only [processDoc] at hq
  have hq' := List.take_subset 5 _ hq
  unfold filterGood at hq'
  rw [List.mem_map] at hq'
  obtain ⟨q0, hq0, rfl⟩ := hq'
  rw [List.mem_filter] at hq0
  obtain ⟨-, hcond⟩ := hq0
  rw [Bool.and_eq_true, decide_eq_true_eq] at hcond
  exact ⟨endsQ_pyStrip hcond.2, by rw [pyWords_pyStrip]; exact hcond.1⟩

theorem suggestionPool_good_aux (llm : List Char → List Char) :
    ∀ (docs : List Doc) (acc : List (List Char)),
      (∀ q ∈ acc, endsQ q = true ∧ (pyWords q).length ≤ 12) →
      ∀ q ∈ docs.foldl (fun a d => a ++ processDoc llm d) acc,
        endsQ q = true ∧ (pyWords q).length ≤ 12 := by
  intro docs
  induction docs with
  | nil => intro acc hacc q hq; exact hacc q hq
  | cons d ds ih =>
    intro acc hacc q hq
    rw [List.foldl_cons] at hq
    refine ih (acc ++ processDoc llm d) ?_ q hq
    intro x hx
    rcases List.mem_append.mp hx with h | h
    · exact hacc x h
    · exact processDoc_good llm d x h

theorem suggestionPool_good (llm : List Char → List Char) (docs : List Doc) :
    ∀ q ∈ suggestionPool llm docs, endsQ q = true ∧ (pyWords q).length ≤ 12 :=
  suggestionPool_good_aux llm docs [] (by intro q hq; simp at hq)

theorem fallbackQuestions_good :
    ∀ q ∈ fallbackQuestions, endsQ q = true ∧ (pyWords q).length ≤ 12 := by decide

/-! ## Claims about the suggestion generator -/

/-- **C1**: for every input document sequence and every generator output
(well-formed or malformed), `generate_suggestions` returns between 8 and 10
questions inclusive, and every returned question ends with `?` and contains
at most 12 words.  The hypothesis on `sample` is `random.sample`'s library
contract (a 10-element selection from the pool), used only when the pool
exceeds 10. -/
theorem generate_suggestions_card_shape (llm : List Char → List Char)
    (sample : List (List Char) → Nat → List (List Char)) (docs : List Doc)
    (hsample : ∀ l : List (List Char), 10 < l.length →
      (sample l 10).length = 10 ∧ ∀ q ∈ sample l 10, q ∈ l) :
    (8 ≤ (generate_suggestions llm sample docs).length ∧
      (generate_suggestions llm sample docs).length ≤ 10) ∧
    ∀ q ∈ generate_suggestions llm sample docs,
      endsQ q = true ∧ (pyWords q).length ≤ 12 := by
  have hpool := suggestionPool_good llm docs
  simp only [generate_suggestions]
  by_cases h1 : 10 < (suggestionPool llm docs).length
  · rw [if_pos h1]
    obtain ⟨hlen, hmem⟩ := hsample (suggestionPool llm docs) h1
    exact ⟨⟨by omega, by omega⟩, fun q hq => hpool q (hmem q hq)⟩
  · rw [if_neg h1]
    by_cases h2 : (suggestionPool llm docs).length < 8
    · rw [if_pos h2]
      constructor
      · have h10 : fallbackQuestions.length = 10 := rfl
        rw [List.length_append, List.length_take, h10]
        omega
      · intro q hq
        rcases List.mem_append.mp hq with h | h
        · exact hpool q h
        · exact fallbackQuestions_good q (List.take_subset _ _ h)
    · rw [if_neg h2]
      exact ⟨⟨by omega, by omega⟩, hpool⟩

def llm0 : List Char → List Char := fun _ => []

def takeSample : List (List Char) → Nat → List (List Char) := fun l k => l.take k

theorem takeSample_spec : ∀ l : List (List Char), 10 < l.length →
    (takeSample l 10).length = 10 ∧ ∀ q ∈ takeSample l 10, q ∈ l := by
  intro l hl
  constructor
  · show (l.take 10).length = 10
    rw [List.length_take]
    omega
  · intro q hq
    exact List.take_subset 10 l hq

/-- Witness for C1 at a concrete input (no documents: the result is the
first 8 fallback questions). -/
theorem generate_suggestions_card_shape_witness :
    8 ≤ (generate_suggestions llm0 takeSample []).length ∧
      (generate_suggestions llm0 takeSample []).length ≤ 10 :=
  (generate_suggestions_card_shape llm0 takeSample [] takeSample_spec).1

/-- **C3**: whenever the pooled, filtered candidate count `n` is below 8,
`generate_suggestions` returns the generator-produced candidates first,
followed by exactly the first `8 - n` entries of the fixed fallback list,
for a total of exactly 8; a pool between 8 and 10 is returned unchanged. -/
theorem generate_suggestions_fallback_pad (llm : List Char → List Char)
    (sample : List (List Char) → Nat → List (List Char)) (docs : List Doc) :
    ((suggestionPool llm docs).length < 8 →
      generate_suggestions llm sample docs =
        suggestionPool llm docs ++
          fallbackQuestions.take (8 - (suggestionPool llm docs).length) ∧
      (generate_suggestions llm sample docs).length = 8) ∧
    (8 ≤ (suggestionPool llm docs).length → (suggestionPool llm docs).length ≤ 10 →
      generate_suggestions llm sample docs = suggestionPool llm docs) := by
  constructor
  · intro h
    have heq : generate_suggestions llm sample docs =
        suggestionPool llm docs ++
          fallbackQuestions.take (8 - (suggestionPool llm docs).length) := by
      simp only [generate_suggestions]
      rw [if_neg (by omega), if_pos h]
    refine ⟨heq, ?_⟩
    have h10 : fallbackQuestions.length = 10 := rfl
    rw [heq, List.length_append, List.length_take, h10]
    omega
  · intro h8 hA
    simp only [generate_suggestions]
    rw [if_neg (by omega), if_neg (by omega)]

/-- Witness for C3 at a concrete input (empty pool: exactly the first 8
fallback questions are appended). -/
theorem generate_suggestions_fallback_pad_witness :
    generate_suggestions llm0 takeSample [] =
      suggestionPool llm0 [] ++
        fallbackQuestions.take (8 - (suggestionPool llm0 []).length) ∧
    (generate_suggestions llm0 takeSample []).length = 8 :=
  (generate_suggestions_fallback_pad llm0 takeSample []).1 (by decide)

/-! ## Claims about the glossary extractor -/

theorem pyDedup_subset {x : List Char} :
    ∀ {l : List (List Char)}, x ∈ pyDedup l → x ∈ l := by
  intro l
  induction l with
  | nil => intro h; simp [pyDedup] at h
  | cons a t ih =>
    intro h
    by_cases ha : a ∈ t
    · rw [pyDedup, if_pos ha] at h
      exact List.mem_cons_of_mem a (ih h)
    · rw [pyDedup, if_neg ha] at h
      rcases List.mem_cons.mp h with h' | h'
      · exact h' ▸ List.mem_cons_self a t
      · exact List.mem_cons_of_mem a (ih h')

theorem pyDedup_nodup : ∀ l : List (List Char), (pyDedup l).Nodup := by
  intro l
  induction l with
  | nil => exact List.nodup_nil
  | cons a t ih =>
    by_cases ha : a ∈ t
    · rw [pyDedup, if_pos ha]; exact ih
    · rw [pyDedup, if_neg ha]
      exact List.nodup_cons.mpr ⟨fun h => ha (pyDedup_subset h), ih⟩

/-- **C2**: the label rules are applied before the text-pattern rule, in the
priority order LAW → ORG/GPE → DATE → Section-pattern → Concepts.  In
particular a DATE-labelled entity whose text matches the `Section N` pattern
goes to "Dates", not "Sections"; the final conjunct runs this through
`glossaryFor` end to end. -/
theorem classify_priority_date_over_section (text rootPos : List Char)
    (h : sectionMatch text = true) :
    classifyEnt (S "DATE") text rootPos = some GCat.dates ∧
    classifyEnt (S "LAW") text rootPos = some GCat.actsLaws ∧
    classifyEnt (S "ORG") text rootPos = some GCat.authorities ∧
    classifyEnt (S "GPE") text rootPos = some GCat.authorities ∧
    (∀ label : List Char, label ≠ S "LAW" → label ≠ S "ORG" → label ≠ S "GPE" →
      label ≠ S "DATE" → classifyEnt label text rootPos = some GCat.sections) ∧
    glossaryFor (fun _ => [⟨S "Section 5", S "DATE", S "PROPN"⟩]) ⟨S "t", none⟩ =
      ⟨[], [], [S "Section 5"], [], []⟩ := by
  refine ⟨?_, ?_, ?_, ?_, ?_, by decide⟩
  · unfold classifyEnt
    rw [if_neg (by decide), if_neg (by decide), if_pos rfl]
  · unfold classifyEnt
    rw [if_pos rfl]
  · unfold classifyEnt
    rw [if_neg (by decide), if_pos (Or.inl rfl)]
  · unfold classifyEnt
    rw [if_neg (by decide), if_pos (Or.inr rfl)]
  · intro label h1 h2 h3 h4
    unfold classifyEnt
    rw [if_neg h1, if_neg (fun hor => hor.elim h2 h3), if_neg h4, if_pos h]

/-- Witness for C2: `"Sec. 5"` matches the Section pattern, yet the DATE
label wins; an unknown label falls through to the pattern rule. -/
theorem classify_priority_date_over_section_witness :
    classifyEnt (S "DATE") (S "Sec. 5") (S "X") = some GCat.dates ∧
    classifyEnt (S "EVENT") (S "Sec. 5") (S "X") = some GCat.sections :=
  ⟨(classify_priority_date_over_section (S "Sec. 5") (S "X") (by decide)).1,
   (classify_priority_date_over_section (S "Sec. 5") (S "X") (by decide)).2.2.2.2.1
     (S "EVENT") (by decide) (by decide) (by decide) (by decide)⟩

/-- **C4**: on a document where the recognizer finds zero entities,
`extract_legal_glossary` (a total function — it cannot raise) still emits
that document's entry, with all five categories present and empty. -/
theorem extract_glossary_empty_entities (nlp : List Char → List Ent)
    (docs : List Doc) (doc : Doc) (hmem : doc ∈ docs)
    (hz : nlp doc.page_content = []) :
    (sourceOf doc, (⟨[], [], [], [], []⟩ : Glossary)) ∈
      extract_legal_glossary nlp docs := by
  unfold extract_legal_glossary
  have hg : glossaryFor nlp doc = ⟨[], [], [], [], []⟩ := by
    unfold glossaryFor
    rw [hz]
    rfl
  rw [← hg]
  exact List.mem_map_of_mem _ hmem

def nlpZero : List Char → List Ent := fun _ => []

def wDoc : Doc := ⟨S "no entities here", some (S "w.pdf")⟩

/-- Witness for C4 at a concrete input. -/
theorem extract_glossary_empty_entities_witness :
    (sourceOf wDoc, (⟨[], [], [], [], []⟩ : Glossary)) ∈
      extract_legal_glossary nlpZero [wDoc] :=
  extract_glossary_empty_entities nlpZero [wDoc] wDoc (List.mem_singleton_self wDoc) rfl

def chunkA : Doc := ⟨S "first chunk text", some (S "a.pdf")⟩

def chunkB : Doc := ⟨S "second chunk text", some (S "a.pdf")⟩

/-- **C7 counterexample**: two input documents (chunks of the same PDF)
carrying the same `"source"` metadata yield two glossary entries with the
same source identifier — the output is not grouped by source. -/
theorem extract_glossary_source_dup_cex :
    ¬ ((extract_legal_glossary nlpZero [chunkA, chunkB]).map Prod.fst).Nodup := by
  decide

/-- **C7 amended**: `extract_legal_glossary` returns exactly one entry per
input document, in input order, with that document's source identifier;
when several documents share a source, one entry per document appears. -/
theorem extract_glossary_one_entry_per_doc (nlp : List Char → List Ent)
    (docs : List Doc) :
    (extract_legal_glossary nlp docs).length = docs.length ∧
    (extract_legal_glossary nlp docs).map Prod.fst = docs.map sourceOf := by
  constructor
  · unfold extract_legal_glossary
    rw [List.length_map]
  · unfold extract_legal_glossary
    rw [List.map_map]
    rfl

def nlpCase : List Char → List Ent :=
  fun _ => [⟨S "EPA", S "ORG", S "PROPN"⟩, ⟨S "epa", S "ORG", S "PROPN"⟩]

def docCase : Doc := ⟨S "EPA epa", some (S "d.pdf")⟩

/-- **C8 counterexample**: deduplication is by exact string identity, so two
terms differing only in letter case both survive in one category. -/
theorem extract_glossary_case_dup_cex :
    extract_legal_glossary nlpCase [docCase] =
      [(S "d.pdf", ⟨[], [S "EPA", S "epa"], [], [], []⟩)] ∧
    S "EPA" ≠ S "epa" ∧
    (S "EPA").map Char.toLower = (S "epa").map Char.toLower := by
  decide

/-- **C8 amended**: within one entry each category's term list is
deduplicated under exact post-trim string identity (case-sensitive): no two
terms of one category are equal as strings, though case or internal
whitespace variants may coexist. -/
theorem extract_glossary_nodup_exact (nlp : List Char → List Ent)
    (docs : List Doc) (p : List Char × Glossary)
    (hp : p ∈ extract_legal_glossary nlp docs) :
    p.2.actsLaws.Nodup ∧ p.2.authorities.Nodup ∧ p.2.dates.Nodup ∧
      p.2.sections.Nodup ∧ p.2.concepts.Nodup := by
  unfold extract_legal_glossary at hp
  rw [List.mem_map] at hp
  obtain ⟨doc, -, rfl⟩ := hp
  unfold glossaryFor dedupGlossary
  exact ⟨pyDedup_nodup _, pyDedup_nodup _, pyDedup_nodup _,
    pyDedup_nodup _, pyDedup_nodup _⟩

/-- Witness for the amended C8 at a concrete input. -/
theorem extract_glossary_nodup_exact_witness :
    (⟨[], [S "EPA", S "epa"], [], [], []⟩ : Glossary).actsLaws.Nodup ∧
    (⟨[], [S "EPA", S "epa"], [], [], []⟩ : Glossary).authorities.Nodup ∧
    (⟨[], [S "EPA", S "epa"], [], [], []⟩ : Glossary).dates.Nodup ∧
    (⟨[], [S "EPA", S "epa"], [], [], []⟩ : Glossary).sections.Nodup ∧
    (⟨[], [S "EPA", S "epa"], [], [], []⟩ : Glossary).concepts.Nodup :=
  extract_glossary_nodup_exact nlpCase [docCase]
    (S "d.pdf", ⟨[], [S "EPA", S "epa"], [], [], []⟩) (by decide)

/-- **C10**: a document whose metadata lacks the `"source"` key is neither
skipped nor an error: its entry is emitted with the identifier `"Unknown"`. -/
theorem extract_glossary_unknown_source (nlp : List Char → List Ent)
    (docs : List Doc) (doc : Doc) (hmem : doc ∈ docs) (hs : doc.source = none) :
    (extract_legal_glossary nlp docs).length = docs.length ∧
    (S "Unknown", glossaryFor nlp doc) ∈ extract_legal_glossary nlp docs := by
  constructor
  · unfold extract_legal_glossary
    rw [List.length_map]
  · unfold extract_legal_glossary
    have hsrc : sourceOf doc = S "Unknown" := by
      unfold sourceOf
      rw [hs]
      rfl
    rw [← hsrc]
    exact List.mem_map_of_mem _ hmem

def docNoSource : Doc := ⟨S "text without metadata", none⟩

/-- Witness for C10 at a concrete input. -/
theorem extract_glossary_unknown_source_witness :
    (extract_legal_glossary nlpZero [docNoSource]).length = [docNoSource].length ∧
    (S "Unknown", glossaryFor nlpZero docNoSource) ∈
      extract_legal_glossary nlpZero [docNoSource] :=
  extract_glossary_unknown_source nlpZero [docNoSource] docNoSource
    (List.mem_singleton_self docNoSource) rfl

/-! ## Claims about chat turn handling -/

theorem handle_user_input_step
    (chain : List Char → List (List Char × List Char) → List Char)
    (st : ChatState) (q : List Char) (hq : q ≠ []) :
    handle_user_input chain st q =
      { chat_history := st.chat_history ++
          [(S "user", q), (S "assistant", chain q st.chat_memory)],
        chat_memory := st.chat_memory ++ [(q, chain q st.chat_memory)] } := by
  simp only [handle_user_input, if_neg hq]
  simp [List.append_assoc]

/-- **C5**: the answering call is handed the full ordered conversation
memory of every prior turn (the chain is a function of question and memory,
so the call leaves the memory unchanged), and the new turn is appended by
the caller only after the call returns: the post-state memory is the
pre-state memory plus one `(question, answer)` turn whose answer was
computed from exactly the pre-state memory.  The second conjunct is the
two-question scenario: the second invocation receives both prior turns. -/
theorem handle_user_input_memory
    (chain : List Char → List (List Char × List Char) → List Char)
    (st : ChatState) (q : List Char) (hq : q ≠ []) :
    (handle_user_input chain st q).chat_memory =
      st.chat_memory ++ [(q, chain q st.chat_memory)] ∧
    ∀ q2 : List Char, q2 ≠ [] →
      (handle_user_input chain (handle_user_input chain st q) q2).chat_memory =
        st.chat_memory ++
          [(q, chain q st.chat_memory),
           (q2, chain q2 (st.chat_memory ++ [(q, chain q st.chat_memory)]))] := by
  constructor
  · rw [handle_user_input_step chain st q hq]
  · intro q2 hq2
    rw [handle_user_input_step chain _ q2 hq2, handle_user_input_step chain st q hq]
    simp [List.append_assoc]

def chain0 : List Char → List (List Char × List Char) → List Char := fun _ _ => S "ok"

/-- Witness for C5 at a concrete two-question run. -/
theorem handle_user_input_memory_witness :
    (handle_user_input chain0 ⟨[], []⟩ (S "hi")).chat_memory =
      ([] : List (List Char × List Char)) ++ [(S "hi", chain0 (S "hi") [])] ∧
    (handle_user_input chain0 (handle_user_input chain0 ⟨[], []⟩ (S "hi"))
        (S "more?")).chat_memory =
      ([] : List (List Char × List Char)) ++
        [(S "hi", chain0 (S "hi") []),
         (S "more?", chain0 (S "more?")
           (([] : List (List Char × List Char)) ++ [(S "hi", chain0 (S "hi") [])]))] :=
  ⟨(handle_user_input_memory chain0 ⟨[], []⟩ (S "hi") (by decide)).1,
   (handle_user_input_memory chain0 ⟨[], []⟩ (S "hi") (by decide)).2
     (S "more?") (by decide)⟩

/-! ## Claims about upload handling -/

def docAlpha : Doc := ⟨S "alpha", some (S "a.pdf")⟩

def docBeta : Doc := ⟨S "beta", some (S "b.pdf")⟩

/-- A deterministic generator distinguishing the two uploads by their
prompts. -/
def llmAB : List Char → List Char :=
  fun p => if p = promptFor (S "alpha") then S "1. Is the alpha rule valid?"
           else S "1. Who enforces the beta rule?"

def sess0 : SessionState := ⟨none, none, none, none⟩

def sessA : SessionState := uploadEvent llmAB takeSample nlpZero sess0 [[docAlpha]]

def sessB : SessionState := uploadEvent llmAB takeSample nlpZero sessA [[docBeta]]

set_option maxRecDepth 100000 in
/-- **C6 counterexample**: replacing one uploaded file by a different file
(same file count) rebuilds the chain and the glossary but keeps the
suggestion list computed from the previous upload set observable — it is
not what regenerating from the new set would produce. -/
theorem upload_stale_suggestions_cex :
    sessB.suggestions = some (generate_suggestions llmAB takeSample [docAlpha]) ∧
    generate_suggestions llmAB takeSample [docAlpha] ≠
      generate_suggestions llmAB takeSample [docBeta] ∧
    sessB.chat_chain = some [docBeta] ∧
    sessB.glossary = some (extract_legal_glossary nlpZero [docBeta]) := by
  decide

/-- **C6 amended**: every upload event rebuilds the chain/index and the
glossary from the new document set; the suggestion list is rebuilt only
when the stored uploaded-file count differs from the new count (on an
equal-count replacement the previous suggestions remain, per the
counterexample). -/
theorem upload_rebuild_count_change (llm : List Char → List Char)
    (sample : List (List Char) → Nat → List (List Char))
    (nlp : List Char → List Ent) (st : SessionState) (uploaded : List (List Doc))
    (h : st.uploaded_files_count ≠ some uploaded.length) :
    (uploadEvent llm sample nlp st uploaded).chat_chain = some uploaded.flatten ∧
    (uploadEvent llm sample nlp st uploaded).glossary =
      some (extract_legal_glossary nlp uploaded.flatten) ∧
    (uploadEvent llm sample nlp st uploaded).suggestions =
      some (generate_suggestions llm sample uploaded.flatten) ∧
    (uploadEvent llm sample nlp st uploaded).uploaded_files_count =
      some uploaded.length := by
  simp [uploadEvent, h]

/-- Witness for the amended C6 at a concrete first upload. -/
theorem upload_rebuild_count_change_witness :
    (uploadEvent llmAB takeSample nlpZero sess0 [[docAlpha]]).chat_chain =
      some ([[docAlpha]] : List (List Doc)).flatten ∧
    (uploadEvent llmAB takeSample nlpZero sess0 [[docAlpha]]).glossary =
      some (extract_legal_glossary nlpZero ([[docAlpha]] : List (List Doc)).flatten) ∧
    (uploadEvent llmAB takeSample nlpZero sess0 [[docAlpha]]).suggestions =
      some (generate_suggestions llmAB takeSample
        ([[docAlpha]] : List (List Doc)).flatten) ∧
    (uploadEvent llmAB takeSample nlpZero sess0 [[docAlpha]]).uploaded_files_count =
      some ([[docAlpha]] : List (List Doc)).length :=
  upload_rebuild_count_change llmAB takeSample nlpZero sess0 [[docAlpha]] (by decide)

/-! ## Claims about the chunker (modelled from the spec) -/

theorem chunksFrom_le_aux (n : Nat) : ∀ cs : List Char, cs.length ≤ n →
    ∀ c ∈ chunksFrom cs, c.length ≤ CHUNK_SIZE := by
  induction n with
  | zero =>
    intro cs hcs c hc
    have h0 : cs.length = 0 := Nat.le_zero.mp hcs
    have hz : cs.length ≤ CHUNK_SIZE := by rw [h0]; exact Nat.zero_le _
    unfold chunksFrom at hc
    rw [dif_pos hz] at hc
    simp at hc
    subst hc
    exact hz
  | succ n ih =>
    intro cs hcs c hc
    unfold chunksFrom at hc
    by_cases hle : cs.length ≤ CHUNK_SIZE
    · rw [dif_pos hle] at hc
      simp at hc
      subst hc
      exact hle
    · rw [dif_neg hle] at hc
      rcases List.mem_cons.mp hc with h | h
      · subst h
        rw [List.length_take]
        omega
      · refine ih (cs.drop (CHUNK_SIZE - CHUNK_OVERLAP)) ?_ c h
        rw [List.length_drop]
        simp only [CHUNK_SIZE, CHUNK_OVERLAP] at *
        omega

theorem chunksFrom_le (cs : List Char) : ∀ c ∈ chunksFrom cs, c.length ≤ CHUNK_SIZE :=
  chunksFrom_le_aux cs.length cs (le_refl _)

theorem chunksFrom_head (cs : List Char) (h : CHUNK_OVERLAP ≤ cs.length) :
    ∃ c rest, chunksFrom cs = c :: rest ∧ CHUNK_OVERLAP ≤ c.length := by
  unfold chunksFrom
  by_cases hle : cs.length ≤ CHUNK_SIZE
  · rw [dif_pos hle]
    exact ⟨cs, [], rfl, h⟩
  · rw [dif_neg hle]
    refine ⟨_, _, rfl, ?_⟩
    rw [List.length_take]
    simp only [CHUNK_SIZE, CHUNK_OVERLAP] at *
    omega

theorem reassemble_chunksFrom_aux (n : Nat) : ∀ cs : List Char, cs.length ≤ n →
    reassemble (chunksFrom cs) = cs := by
  induction n with
  | zero =>
    intro cs hcs
    have h0 : cs.length = 0 := Nat.le_zero.mp hcs
    have hz : cs.length ≤ CHUNK_SIZE := by rw [h0]; exact Nat.zero_le _
    unfold chunksFrom
    rw [dif_pos hz]
    simp [reassemble]
  | succ n ih =>
    intro cs hcs
    by_cases hle : cs.length ≤ CHUNK_SIZE
    · unfold chunksFrom
      rw [dif_pos hle]
      simp [reassemble]
    · unfold chunksFrom
      rw [dif_neg hle]
      have hdslen : (cs.drop (CHUNK_SIZE - CHUNK_OVERLAP)).length =
          cs.length - (CHUNK_SIZE - CHUNK_OVERLAP) := List.length_drop _ _
      have hlen1 : CHUNK_OVERLAP ≤ (cs.drop (CHUNK_SIZE - CHUNK_OVERLAP)).length := by
        rw [hdslen]
        simp only [CHUNK_SIZE, CHUNK_OVERLAP] at *
        omega
      obtain ⟨c0, rest, hchunks, hc0⟩ := chunksFrom_head _ hlen1
      have hih : reassemble (chunksFrom (cs.drop (CHUNK_SIZE - CHUNK_OVERLAP))) =
          cs.drop (CHUNK_SIZE - CHUNK_OVERLAP) := by
        refine ih _ ?_
        rw [hdslen]
        simp only [CHUNK_SIZE, CHUNK_OVERLAP] at *
        omega
      have hkey : ((chunksFrom (cs.drop (CHUNK_SIZE - CHUNK_OVERLAP))).map
          (List.drop CHUNK_OVERLAP)).flatten =
          List.drop CHUNK_OVERLAP (cs.drop (CHUNK_SIZE - CHUNK_OVERLAP)) := by
        rw [hchunks, List.map_cons, List.flatten_cons]
        have hsplit : List.drop CHUNK_OVERLAP c0 ++
            (rest.map (List.drop CHUNK_OVERLAP)).flatten =
            List.drop CHUNK_OVERLAP (c0 ++ (rest.map (List.drop CHUNK_OVERLAP)).flatten) := by
          rw [List.drop_append_eq_append_drop, Nat.sub_eq_zero_of_le hc0, List.drop_zero]
        rw [hsplit]
        have hre : c0 ++ (rest.map (List.drop CHUNK_OVERLAP)).flatten =
            reassemble (chunksFrom (cs.drop (CHUNK_SIZE - CHUNK_OVERLAP))) := by
          rw [hchunks]
          rfl
        rw [hre, hih]
      show cs.take CHUNK_SIZE ++
          ((chunksFrom (cs.drop (CHUNK_SIZE - CHUNK_OVERLAP))).map
            (List.drop CHUNK_OVERLAP)).flatten = cs
      rw [hkey, List.drop_drop]
      have harith : CHUNK_SIZE - CHUNK_OVERLAP + CHUNK_OVERLAP = CHUNK_SIZE := by
        simp only [CHUNK_SIZE, CHUNK_OVERLAP]
      rw [harith, List.take_append_drop]

theorem reassemble_chunksFrom (cs : List Char) : reassemble (chunksFrom cs) = cs :=
  reassemble_chunksFrom_aux cs.length cs (le_refl _)

/-- **C9** (chunker modelled from the spec, the splitter itself being
library code absent from the repository): chunking empty text fails with
`InvalidDocumentError`; non-empty text succeeds, the overlap-removing
reassembly returns the whole text (so no trailing content is dropped), and
no chunk exceeds the configured maximum length. -/
theorem chunk_empty_error_nonempty_total (cs : List Char) :
    (cs = [] → chunk_document cs = Except.error DocError.InvalidDocumentError) ∧
    (cs ≠ [] →
      chunk_document cs = Except.ok (chunksFrom cs) ∧
      reassemble (chunksFrom cs) = cs ∧
      ∀ c ∈ chunksFrom cs, c.length ≤ CHUNK_SIZE) := by
  constructor
  · intro h
    unfold chunk_document
    rw [if_pos h]
  · intro h
    refine ⟨?_, reassemble_chunksFrom cs, chunksFrom_le cs⟩
    unfold chunk_document
    rw [if_neg h]

/-- Witness for C9 at a concrete input. -/
theorem chunk_empty_error_nonempty_total_witness :
    chunk_document (S "hello") = Except.ok (chunksFrom (S "hello")) ∧
    reassemble (chunksFrom (S "hello")) = S "hello" :=
  ⟨((chunk_empty_error_nonempty_total (S "hello")).2 (by decide)).1,
   ((chunk_empty_error_nonempty_total (S "hello")).2 (by decide)).2.1⟩

end Justify
